import Mathlib

/-!
A verification development for the xdra model-interpreter repository
(modelparser.py, executor.py, cache.py, sort.py, conglomerator.py).

The Python sources are shallowly embedded:
* XML elements (the xmlio object model) become the inductive `Element`
  (tag, attribute list, text, tail, children).  Python `None` for a text
  or tail field is modelled as the empty string; Python truthiness of a
  string is being nonempty, and truthiness of an element is having at
  least one child (xmlio elements define length as the child count).
* Mutable interpreter state (`ModelParser` attributes) becomes the
  record `PState` threaded explicitly.  Python list objects that are
  shared by reference (the global/local source lists) are modelled by a
  heap: `PState.store` maps a reference number to the list contents, and
  the parser holds reference numbers, so rebinding versus mutating a
  list is observable, exactly as in Python.
* Exceptions become `Except PyErr`; every interpreter function returns
  `PState × Except PyErr α` so that side effects performed before an
  exception persist, as they do in Python.  A bare `except:` block is
  modelled by dropping the error and continuing with the state at the
  point the exception was raised.
* Recursion is fuel-indexed (`Nat` fuel, structurally decreasing), with
  `PyErr.fuel` standing for nonterminating evaluation (the Python code
  can genuinely diverge, e.g. on a self-including model file).
* External collaborators that are out of scope in the spec (file
  loading, URL fetching, execution of embedded extension code) are
  oracle functions in `Env`.
-/

set_option linter.unusedVariables false

namespace Xdra

/-- The xmlio XML object model, translated from how modelparser.py uses it:
a node has a qualified tag, an ordered attribute list, text, tail, and an
ordered child list.  Python `None` text/tail is modelled as `""`. -/
inductive Element : Type where
  | mk (tag : String) (attrib : List (String × String)) (text : String) (tail : String)
       (children : List Element)

def Element.tag : Element → String
  | .mk t _ _ _ _ => t

def Element.attrib : Element → List (String × String)
  | .mk _ a _ _ _ => a

def Element.text : Element → String
  | .mk _ _ x _ _ => x

def Element.tail : Element → String
  | .mk _ _ _ l _ => l

def Element.children : Element → List Element
  | .mk _ _ _ _ cs => cs

/-- Python dict lookup `node.attrib.get(k)`: the first binding of `k`,
or `None` (here `none`) when absent. -/
def attrGet (e : Element) (k : String) : Option String :=
  (e.attrib.find? (fun p => decide (p.1 = k))).map (fun p => p.2)

/-- Python truthiness of an xmlio element: xmlio defines element length as
the number of children, so a childless element is falsy. -/
def pyTruthyE (e : Element) : Bool :=
  !e.children.isEmpty

/-- Python string truthiness: nonempty. -/
def pyTruthyS (s : String) : Bool :=
  !(s == "")

/-- Kernel-friendly `startsWith` on the character lists of the strings. -/
def strStartsWith (s p : String) : Bool :=
  p.data.isPrefixOf s.data

/-- Kernel-friendly `endsWith` on the character lists of the strings. -/
def strEndsWith (s p : String) : Bool :=
  p.data.isSuffixOf s.data

/-- Kernel-friendly `drop` of the first `n` characters. -/
def strDrop (s : String) (n : Nat) : String :=
  String.mk (s.data.drop n)

/-- Python slicing `s[:-1]`: drop the last character. -/
def strDropLast (s : String) : String :=
  String.mk (s.data.dropLast)

/-- Python `"".join(datalist)`: concatenation in list order. -/
def strJoin : List String → String
  | [] => ""
  | s :: l => s ++ strJoin l

/-- A string repeated `n` times (used for the indentation loops
`for count in range(1,self.level)`). -/
def strRepeat (s : String) : Nat → String
  | 0 => ""
  | n + 1 => s ++ strRepeat s n

/-- Python `code.replace(chr(13) ++ chr(10), chr(10))` from
Executor.setCode: left-to-right, non-overlapping replacement of the
two-character CRLF sequence by a bare newline. -/
def normNewlinesL : List Char → List Char
  | [] => []
  | '\r' :: '\n' :: rest => '\n' :: normNewlinesL rest
  | c :: rest => c :: normNewlinesL rest

def normNewlines (s : String) : String :=
  String.mk (normNewlinesL s.data)

/-- Python 2 byte-wise string comparison, on character lists
(lexicographic by code point; coincides with the byte order on ASCII). -/
def clLe : List Char → List Char → Bool
  | [], _ => true
  | _ :: _, [] => false
  | a :: as, b :: bs =>
    if a.toNat < b.toNat then true
    else if b.toNat < a.toNat then false
    else clLe as bs

/-- Python `s1 <= s2` for strings. -/
def pyStrLe (a b : String) : Bool :=
  clLe a.data b.data

/-- Python `s.lower()` (modelled with the code-point lowercase map;
identical on ASCII). -/
def pyLower (s : String) : String :=
  String.mk (s.data.map Char.toLower)

mutual
/-- Modelled from the spec: xmlio path matching is not under src/; the
spec requires at least direct-child search for a path of the shape
"./tag" and descendant search for ".//tag".  `descTag` collects, in
document (preorder) order, every strict descendant whose tag matches. -/
def descTag (t : String) : Element → List Element
  | .mk _ _ _ _ cs => descTagList t cs

/-- Companion of `descTag` for child lists. -/
def descTagList (t : String) : List Element → List Element
  | [] => []
  | c :: cs => (if c.tag = t then [c] else []) ++ descTag t c ++ descTagList t cs
end

/-- Modelled from the spec: `elem.findall(path)` of xmlio, for the two
path shapes the spec requires; any other path yields no matches. -/
def findallStr (e : Element) (path : String) : List Element :=
  if strStartsWith path ".//" then descTagList (strDrop path 3) e.children
  else if strStartsWith path "./" then e.children.filter (fun c => decide (c.tag = strDrop path 2))
  else []

/-- Modelled from the spec: `elem.findtext(path)` of xmlio — the text of
the first node matching `path`, or no result when nothing matches. -/
def findtextStr (e : Element) (path : String) : Option String :=
  (findallStr e path).map Element.text |>.head?

/-- Serialization of one attribute list as written by parseXML
(modelparser.py lines 99-100): a space, the key, `="`, the raw value,
`"`. -/
def attrStr : List (String × String) → String
  | [] => ""
  | (k, v) :: rest => " " ++ k ++ "=\"" ++ v ++ "\"" ++ attrStr rest

mutual
/-- Modelled from the spec: xmlio ElementTree.tostring — the literal
serialization of a node: tag, attributes, text, children (each followed
by its tail), and the closing tag; childless, textless nodes
self-close.  Escaping is not modelled (no claim depends on it). -/
def tostring : Element → String
  | .mk t a tx tl cs =>
    "<" ++ t ++ attrStr a ++
      (if tx = "" ∧ cs.isEmpty then " />" ++ tl
       else ">" ++ tx ++ tostringList cs ++ "</" ++ t ++ ">" ++ tl)

/-- Companion of `tostring` for child lists. -/
def tostringList : List Element → String
  | [] => ""
  | c :: cs => tostring c ++ tostringList cs
end

/-- The value returned by `md5.new(keytext)` in Cache.getkey
(cache.py line 48).  Python 2 md5 objects are C-extension objects with
no equality or hashing of their own, so as dictionary keys two md5
objects are equal only when they are the same object; `oid` models that
object identity (`Cache.nextOid` is the allocator).  `digest` is the
checksum of the hashed text, modelled injectively by the text itself. -/
structure MD5Key where
  oid : Nat
  digest : String
deriving DecidableEq

/-- cache.py Cache: the `cache` dictionary of key/object pairs plus the
allocator for md5 object identities.  The stored objects here are the
compiled code objects of executor.py, modelled by their source text. -/
structure Cache where
  entries : List (MD5Key × String)
  nextOid : Nat

/-- Cache.__init__ (maxsize is unused in the source). -/
def Cache.init : Cache :=
  { entries := [], nextOid := 0 }

/-- Cache.getkey: `key=md5.new(keytext); return key` — a fresh md5
object whose checksum is that of `keytext`. -/
def Cache.getkey (c : Cache) (keytext : String) : Cache × MD5Key :=
  ({ c with nextOid := c.nextOid + 1 }, ⟨c.nextOid, keytext⟩)

/-- Dictionary lookup `self.cache[key]` with md5-object keys: a key
matches only the identical object. -/
def Cache.lookup (c : Cache) (k : MD5Key) : Option String :=
  (c.entries.find? (fun p => decide (p.1 = k))).map (fun p => p.2)

/-- Cache.contains: `self.cache[key]` guarded by try/except, then the
truthiness of the stored item.  The stored items are compiled code
objects, which are always truthy, so this is key membership.  A `none`
key (Python `None`, the initial Executor key) raises KeyError inside the
try and yields False. -/
def Cache.contains (c : Cache) (k : Option MD5Key) : Bool :=
  match k with
  | none => false
  | some k => (c.lookup k).isSome

/-- Cache.add: store `item` under `key` (callers in executor.py always
pass a key; with no key a fresh checksum of the item would be used).
Dictionary assignment replaces an equal key, else adds the pair. -/
def Cache.add (c : Cache) (item : String) (key : Option MD5Key) : Cache × MD5Key :=
  match key with
  | some k =>
    if (c.lookup k).isSome then
      ({ c with entries := c.entries.map (fun p => if p.1 = k then (k, item) else p) }, k)
    else ({ c with entries := c.entries ++ [(k, item)] }, k)
  | none =>
    let (c', k) := c.getkey item
    ({ c' with entries := c'.entries ++ [(k, item)] }, k)

/-- Cache.retrieve: the stored object, or None when the key is absent. -/
def Cache.retrieve (c : Cache) (k : Option MD5Key) : Option String :=
  match k with
  | none => none
  | some k => c.lookup k

/-- executor.py Executor: the private cache, the name and (normalized)
source code of the current extension script, and the current key.
The empty string models the attributes before any successful setCode
(Python None). -/
structure Executor where
  execCache : Cache
  name : String
  code : String
  key : Option MD5Key

/-- Executor.__init__ with the default arguments (name, code and tree
all None). -/
def Executor.init : Executor :=
  { execCache := Cache.init, name := "", code := "", key := none }

/-- Executor.setName. -/
def Executor.setName (ex : Executor) (name : String) : Executor :=
  { ex with name := name }

/-- Executor.setCode (executor.py lines 61-76): when `code` is truthy,
`self.code` becomes the code with CRLF normalized to LF, but the cache
key is computed from the ORIGINAL `code` argument
(`self.key=self.__execCache.getkey(code)`), not from the normalized
`self.code`. -/
def Executor.setCode (ex : Executor) (code : String) : Executor :=
  if code = "" then ex
  else
    let (c', k) := ex.execCache.getkey code
    { ex with code := normNewlines code, key := some k, execCache := c' }

/-- Executor.runAction (executor.py lines 78-100) restricted to its
cache/compile protocol: when the cache does not contain the current key,
compile `self.code` (the artifact is modelled by the compiled source
text) and add it under the key; otherwise retrieve the stored artifact.
The returned Bool reports whether this call compiled.  `execO` is the
oracle for `exec(self.out)`: the text the executed artifact leaves in
xdra_outtext (tree mutation is out of scope here; the interpreter
embedding carries its own oracle for it). -/
def Executor.runAction (execO : String → String) (ex : Executor) :
    Executor × String × Bool :=
  if !(ex.execCache.contains ex.key) then
    let out := ex.code
    let (c', _) := ex.execCache.add out ex.key
    ({ ex with execCache := c' }, execO out, true)
  else
    let out := (ex.execCache.retrieve ex.key).getD ""
    (ex, execO out, false)

/-- sort.py key extraction: `x.findtext(".//"+key).lower()`.  When no
descendant matches, Python raises AttributeError on the `.lower()` call;
the claims about Sort.sort assume a match exists, so the `.getD ""`
default is never exercised there. -/
def sortKeyOf (key : String) (x : Element) : String :=
  pyLower ((findtextStr x (".//" ++ key)).getD "")

/-- Sort.sort (sort.py lines 17-46): for more than one record, an
ascending (or, with `reverse`, descending) stable sort of `datalist` by
the lowercased text of the first descendant matching `key`; otherwise
the list unchanged.  Python list.sort with a cmp function is a stable
sort; a stable sort is uniquely determined by the comparator, so it is
modelled with insertionSort (stable). -/
def Sort.sort (datalist : List Element) (key : String) (reverse : Bool) :
    List Element :=
  if 1 < datalist.length then
    if reverse then
      List.insertionSort (fun x y => pyStrLe (sortKeyOf key y) (sortKeyOf key x) = true) datalist
    else
      List.insertionSort (fun x y => pyStrLe (sortKeyOf key x) (sortKeyOf key y) = true) datalist
  else datalist

/-- The qualified directive tags of modelparser.py (class attributes). -/
def modelTAG : String := "{xdra}model"

def sourceTAG : String := "{xdra}source"

def queryTAG : String := "{xdra}query"

def actionTAG : String := "{xdra}action"

def getnodeTAG : String := "{xdra}getnode"

def getcontentTAG : String := "{xdra}getcontent"

def literalTAG : String := "{xdra}literal"

/-- The default tab size set in ModelParser.__init__ (4 spaces). -/
def tabSize : String := "    "

/-- The fixed sentinel of parseModel when the output list is empty
(modelparser.py line 485). -/
def noOutputMsg : String := "No output was generated using the current model."

/-- Python exceptions, plus `fuel` marking a computation that did not
finish within the given fuel (the Python code can diverge, e.g. on a
self-including model file). -/
inductive PyErr : Type where
  | nameErr (n : String)
  | attrErr (n : String)
  | extErr (n : String)
  | fuel
deriving DecidableEq

/-- The mutable state of one ModelParser instance.  Python list objects
are aliased by reference, so the two source-list attributes are
reference numbers into the shared heap `store`; `self.globalsources=[]`
allocates a fresh entry and rebinds the reference, while
`self.globalsources.append(x)` mutates the referenced entry in place —
the distinction at the heart of the child-interpreter claims.  `rname`
and `rcode` are the name/code attributes of this instance's Executor
(its cache behavior is modelled separately by `Executor`). -/
structure PState where
  store : List (List Element)
  gref : Nat
  lref : Nat
  querypath : String
  level : Nat
  atype : String
  skey : String
  rname : String
  rcode : String

/-- The list currently referenced by `r` (callers only use live
references; a dangling reference reads as empty). -/
def readRef (st : PState) (r : Nat) : List Element :=
  st.store.getD r []

/-- In-place `list.append` through a reference. -/
def appendRef (st : PState) (r : Nat) (e : Element) : PState :=
  { st with store := st.store.set r (readRef st r ++ [e]) }

/-- Allocation of a fresh empty list object (`[]` in Python), returning
its reference. -/
def allocRef (st : PState) : PState × Nat :=
  ({ st with store := st.store ++ [[]] }, st.store.length)

/-- ModelParser.reset: unless `keepsources`, rebind both source
attributes to freshly allocated empty lists; always clear the query
path, nesting level, action type and sort key. -/
def reset (st : PState) (keepsources : Bool) : PState :=
  let st1 :=
    if keepsources then st
    else
      let (sa, g) := allocRef st
      let (sb, l) := allocRef sa
      { sb with gref := g, lref := l }
  { st1 with querypath := "", level := 0, atype := "", skey := "" }

/-- ModelParser.__init__(globalsources, localsources): the constructor
stores the references it was handed, builds a fresh Executor, and then
calls reset() — which immediately rebinds both source attributes to new
empty lists. -/
def initParser (store : List (List Element)) (g l : Nat) : PState :=
  reset
    { store := store, gref := g, lref := l, querypath := "", level := 0,
      atype := "", skey := "", rname := "", rcode := "" } false

/-- The out-of-scope collaborators as oracles: `fs` is
`ElementTree.parse(path).getroot()` for nested model files;
`getDocObj path rootname recursive url` is conglomerator.FileInput's
source aggregation; `runSrc name code tree` and `runAct code tree` are
the Executor runs of embedded extension code (runSource returning the
populated tree, runAction returning the mutated tree and the text left
in xdra_outtext).  Each may raise. -/
structure Env where
  fs : String → Except PyErr Element
  getDocObj : String → String → Bool → Bool → Except PyErr Element
  runSrc : String → String → Element → Except PyErr Element
  runAct : String → Element → Except PyErr (Element × String)

/-- The result of an interpreter step: the state as mutated so far, and
either a value or the exception that escaped (state mutations performed
before an exception persist, as in Python). -/
abbrev MRes (α : Type) := PState × Except PyErr α

/-- ModelParser.parseGetContent: with no (or empty) path attribute,
return None; otherwise `source.findtext(path)` — which raises
AttributeError when the carried item is Python None. -/
def parseGetContent (node : Element) (source : Option Element) :
    Except PyErr (Option String) :=
  let path := (attrGet node "path").getD ""
  if path = "" then .ok none
  else
    match source with
    | none => .error (.attrErr "findtext on None")
    | some src => .ok (findtextStr src path)

/-- ModelParser.parseLiteral: the node text followed by the verbatim
serialization of each child. -/
def parseLiteral (node : Element) : String :=
  node.text ++ strJoin (node.children.map tostring)

/-- ModelParser.parseSource: register a source.  `files` and `url`
delegate to the aggregator and append to the global or local list
depending on `islocal` (skipping falsy results and, for `files`,
missing attributes); `custom` primes the executor with the node text,
runs it on a fresh tree named by the source, and always appends the
result to the GLOBAL list (line 410), regardless of `islocal`. -/
def parseSource (env : Env) (node : Element) (islocal : Bool) (st : PState) :
    MRes Unit :=
  let stype := (attrGet node "type").getD ""
  if stype = "files" then
    let path := (attrGet node "path").getD ""
    let rootname := (attrGet node "name").getD ""
    if path = "" ∨ rootname = "" then (st, .ok ())
    else
      let recursive :=
        attrGet node "recursive" = some "1" ∨ attrGet node "recursive" = some "yes"
      match env.getDocObj path rootname (decide recursive) false with
      | .error e => (st, .error e)
      | .ok source =>
        if pyTruthyE source then
          (appendRef st (if islocal then st.lref else st.gref) source, .ok ())
        else (st, .ok ())
  else if stype = "custom" then
    let sname := (attrGet node "name").getD ""
    let st1 :=
      { st with rname := sname,
                rcode := if node.text = "" then st.rcode else normNewlines node.text }
    let sroot := Element.mk sname [] "" "" []
    match env.runSrc st1.rname st1.rcode sroot with
    | .error e => (st1, .error e)
    | .ok tree => (appendRef st1 st1.gref tree, .ok ())
  else if stype = "url" then
    let rootname := (attrGet node "name").getD ""
    let path := (attrGet node "path").getD ""
    match env.getDocObj path rootname false true with
    | .error e => (st, .error e)
    | .ok source =>
      if pyTruthyE source then
        (appendRef st (if islocal then st.lref else st.gref) source, .ok ())
      else (st, .ok ())
  else (st, .ok ())

/-- Python `if data:` before `output.append(data)` for a plain string. -/
def truthyL (s : String) : List String :=
  if s = "" then [] else [s]

/-- Python `if data:` before `output.append(data)` for a possibly-None
string. -/
def truthyOptL (d : Option String) : List String :=
  match d with
  | none => []
  | some s => truthyL s

/-- The getnode/getcontent/nested-model append pattern of parseXML: when
the data is truthy, a newline is appended before it. -/
def nlTruthyOptL (d : Option String) : List String :=
  match d with
  | none => []
  | some s => if s = "" then [] else ["\n", s]

/-- Sources gathered by parseGetNode:
`for source in self.globalsources: itemlist.extend(source.findall(path))`. -/
def gatherAll (sources : List Element) (path : String) : List Element :=
  match sources with
  | [] => []
  | s :: rest => findallStr s path ++ gatherAll rest path

/-- Indentation pieces `for count in range(1,self.level)` joined. -/
def indentOf (level : Nat) : String :=
  strRepeat tabSize (level - 1)

mutual
/-- ModelParser.parseModel: return None unless the root tag is the
qualified model tag; otherwise fold the children in document order,
append the root tail if truthy, and return the joined output, or the
fixed sentinel when the output list is empty.  The optional write of
the output to the file named by the root `output` attribute is a pure
side effect and is not modelled. -/
def parseModel (fuel : Nat) (env : Env) (doc : Element) (st : PState) :
    MRes (Option String) :=
  if doc.tag ≠ modelTAG then (st, .ok none)
  else
    match fuel with
    | 0 => (st, .error .fuel)
    | n + 1 =>
      match parseModelChildren n env doc.children st with
      | (st1, .error e) => (st1, .error e)
      | (st1, .ok out) =>
        let out := out ++ (if doc.tail = "" then [] else [doc.tail])
        let data :=
          match out with
          | [] => noOutputMsg
          | _ => strJoin out
        (st1, .ok (some data))

/-- The child-dispatch loop of parseModel (lines 444-482): sources
register globally, queries/literals append when truthy, nested models
with a path load the file and run a child interpreter inside
try/except, nested childless models run the child interpreter on the
node itself inside try/except, nested models with children and no path
take no branch, and anything else is serialized by parseXML under an
incremented level. -/
def parseModelChildren (fuel : Nat) (env : Env) (cs : List Element) (st : PState) :
    MRes (List String) :=
  match fuel with
  | 0 => (st, .error .fuel)
  | n + 1 =>
    match cs with
    | [] => (st, .ok [])
    | c :: rest =>
      if c.tag = sourceTAG then
        match parseSource env c false st with
        | (st1, .error e) => (st1, .error e)
        | (st1, .ok _) => parseModelChildren n env rest st1
      else if c.tag = queryTAG then
        match parseQuery n env c st with
        | (st1, .error e) => (st1, .error e)
        | (st1, .ok d) =>
          match parseModelChildren n env rest st1 with
          | (st2, .error e) => (st2, .error e)
          | (st2, .ok out) => (st2, .ok (truthyOptL d ++ out))
      else if c.tag = literalTAG then
        match parseModelChildren n env rest st with
        | (st2, .error e) => (st2, .error e)
        | (st2, .ok out) => (st2, .ok (truthyL (parseLiteral c) ++ out))
      else if c.tag = modelTAG then
        if (attrGet c "path").getD "" ≠ "" then
          match env.fs ((attrGet c "path").getD "") with
          | .error _ => parseModelChildren n env rest st
          | .ok cmodel =>
            match runChild n env cmodel st with
            | (st1, .error _) => parseModelChildren n env rest st1
            | (st1, .ok d) =>
              match parseModelChildren n env rest st1 with
              | (st2, .error e) => (st2, .error e)
              | (st2, .ok out) => (st2, .ok (truthyOptL d ++ out))
        else if c.children.isEmpty then
          match runChild n env c st with
          | (st1, .error _) => parseModelChildren n env rest st1
          | (st1, .ok d) =>
            match parseModelChildren n env rest st1 with
            | (st2, .error e) => (st2, .error e)
            | (st2, .ok out) => (st2, .ok (truthyOptL d ++ out))
        else parseModelChildren n env rest st
      else
        match parseXML n env c none { st with level := st.level + 1 } with
        | (st1, .error e) => (st1, .error e)
        | (st1, .ok d) =>
          match parseModelChildren n env rest { st1 with level := st1.level - 1 } with
          | (st2, .error e) => (st2, .error e)
          | (st2, .ok out) => (st2, .ok (truthyL d ++ out))

/-- The nested-model spawn of parseModel (lines 462-464, 471-473):
`parser=ModelParser(self.globalsources,self.localsources)` hands the
child the current references, after which the child runs on the shared
heap; the parent keeps its own attributes and resumes with the heap as
the child left it.  Errors are reported to the caller (which models the
surrounding try/except). -/
def runChild (fuel : Nat) (env : Env) (cmodel : Element) (st : PState) :
    MRes (Option String) :=
  match fuel with
  | 0 => (st, .error .fuel)
  | n + 1 =>
    match parseModel n env cmodel (initParser st.store st.gref st.lref) with
    | (cst, .error e) => ({ st with store := cst.store }, .error e)
    | (cst, .ok d) => ({ st with store := cst.store }, .ok d)

/-- The nested-model spawn of parseXML (lines 130-152), which also calls
`parser.reset()` after a successful run (the reset is skipped when the
run raised). -/
def runChildReset (fuel : Nat) (env : Env) (cmodel : Element) (st : PState) :
    MRes (Option String) :=
  match fuel with
  | 0 => (st, .error .fuel)
  | n + 1 =>
    match parseModel n env cmodel (initParser st.store st.gref st.lref) with
    | (cst, .error e) => ({ st with store := cst.store }, .error e)
    | (cst, .ok d) => ({ st with store := (reset cst false).store }, .ok d)

/-- ModelParser.parseQuery: set the query path from the `path` attribute
(trailing slash stripped), REBIND the local source list to a fresh empty
list, fold the children, and return the joined output or None. -/
def parseQuery (fuel : Nat) (env : Env) (node : Element) (st : PState) :
    MRes (Option String) :=
  match fuel with
  | 0 => (st, .error .fuel)
  | n + 1 =>
    let qp0 := (attrGet node "path").getD ""
    let qp := if qp0 ≠ "" then (if strEndsWith qp0 "/" then strDropLast qp0 else qp0) else qp0
    let (st1, newl) := allocRef { st with querypath := qp }
    match parseQueryChildren n env node.children { st1 with lref := newl } with
    | (st2, .error e) => (st2, .error e)
    | (st2, .ok pieces) =>
      (st2, .ok (match pieces with | [] => none | _ => some (strJoin pieces)))

/-- The child-dispatch loop of parseQuery (lines 348-365).  The source
branch is modelparser.py line 355,
`localsources.append(self.parseSource(child, local=True))`: the name
`localsources` is unbound there (the attribute is `self.localsources`),
so Python raises NameError while evaluating `localsources.append`,
before parseSource is called; the error propagates and aborts the
query. -/
def parseQueryChildren (fuel : Nat) (env : Env) (cs : List Element) (st : PState) :
    MRes (List String) :=
  match fuel with
  | 0 => (st, .error .fuel)
  | n + 1 =>
    match cs with
    | [] => (st, .ok [])
    | c :: rest =>
      if c.tag = actionTAG then
        match parseAction n env c st with
        | (st1, .error e) => (st1, .error e)
        | (st1, .ok d) =>
          match parseQueryChildren n env rest st1 with
          | (st2, .error e) => (st2, .error e)
          | (st2, .ok out) => (st2, .ok (truthyOptL d ++ out))
      else if c.tag = sourceTAG then
        (st, .error (.nameErr "localsources"))
      else if c.tag = literalTAG then
        match parseQueryChildren n env rest st with
        | (st2, .error e) => (st2, .error e)
        | (st2, .ok out) => (st2, .ok (truthyL (parseLiteral c) ++ out))
      else
        match parseXML n env c none { st with level := st.level + 1 } with
        | (st1, .error e) => (st1, .error e)
        | (st1, .ok d) =>
          match parseQueryChildren n env rest { st1 with level := st1.level - 1 } with
          | (st2, .error e) => (st2, .error e)
          | (st2, .ok out) => (st2, .ok (truthyL d ++ out))

/-- ModelParser.parseAction: read the `type` and `key` attributes into
the interpreter context (and, for `custom`, prime the executor with the
node name and text), fold the children, then clear `atype` and `skey` —
the clear is on the successful exit path only, an escaping exception
skips it, as in Python. -/
def parseAction (fuel : Nat) (env : Env) (node : Element) (st : PState) :
    MRes (Option String) :=
  match fuel with
  | 0 => (st, .error .fuel)
  | n + 1 =>
    let st1 := { st with atype := (attrGet node "type").getD "",
                         skey := (attrGet node "key").getD "" }
    let st1 :=
      if st1.atype = "custom" then
        { st1 with rname := (attrGet node "name").getD "",
                   rcode := if node.text = "" then st1.rcode else normNewlines node.text }
      else st1
    match parseActionChildren n env node.children st1 with
    | (st2, .error e) => (st2, .error e)
    | (st2, .ok pieces) =>
      ({ st2 with atype := "", skey := "" },
       .ok (match pieces with | [] => none | _ => some (strJoin pieces)))

/-- The child-dispatch loop of parseAction (lines 303-315): getnode and
literal children append when truthy; anything else goes to parseXML
(with no level adjustment, per the source). -/
def parseActionChildren (fuel : Nat) (env : Env) (cs : List Element) (st : PState) :
    MRes (List String) :=
  match fuel with
  | 0 => (st, .error .fuel)
  | n + 1 =>
    match cs with
    | [] => (st, .ok [])
    | c :: rest =>
      if c.tag = getnodeTAG then
        match parseGetNode n env c st with
        | (st1, .error e) => (st1, .error e)
        | (st1, .ok d) =>
          match parseActionChildren n env rest st1 with
          | (st2, .error e) => (st2, .error e)
          | (st2, .ok out) => (st2, .ok (truthyOptL d ++ out))
      else if c.tag = literalTAG then
        match parseActionChildren n env rest st with
        | (st2, .error e) => (st2, .error e)
        | (st2, .ok out) => (st2, .ok (truthyL (parseLiteral c) ++ out))
      else
        match parseXML n env c none st with
        | (st1, .error e) => (st1, .error e)
        | (st1, .ok d) =>
          match parseActionChildren n env rest st1 with
          | (st2, .error e) => (st2, .error e)
          | (st2, .ok out) => (st2, .ok (truthyL d ++ out))

/-- ModelParser.parseGetNode: resolve the effective path (own attribute,
else the current query path), gather matches from every global source,
apply the active transform (sort/reversesort via Sort.sort when a key is
set; custom by running the executor on the records wrapped under a
synthetic root, appending the run's output text unconditionally and
taking the root children back), then fan out. -/
def parseGetNode (fuel : Nat) (env : Env) (node : Element) (st : PState) :
    MRes (Option String) :=
  match fuel with
  | 0 => (st, .error .fuel)
  | n + 1 =>
    let path0 := (attrGet node "path").getD ""
    let path := if path0 = "" then st.querypath else path0
    let itemlist := gatherAll (readRef st st.gref) path
    if st.atype ≠ "" then
      if strEndsWith st.atype "sort" then
        if st.skey ≠ "" then
          let itemlist1 :=
            if st.atype = "reversesort" then Sort.sort itemlist st.skey true
            else if st.atype = "sort" then Sort.sort itemlist st.skey false
            else itemlist
          parseGetNodeFan n env node itemlist1 [] st
        else parseGetNodeFan n env node itemlist [] st
      else if st.atype = "custom" then
        match env.runAct st.rcode (Element.mk "root" [] "" "" itemlist) with
        | .error e => (st, .error e)
        | .ok (root1, outtext) =>
          parseGetNodeFan n env node root1.children [outtext] st
      else parseGetNodeFan n env node itemlist [] st
    else parseGetNodeFan n env node itemlist [] st

/-- The fan-out of parseGetNode (lines 252-279): with children, iterate
every record against every child directive; without children, serialize
each truthy record verbatim.  Joined output, or None when nothing (not
even custom-action text) accumulated. -/
def parseGetNodeFan (fuel : Nat) (env : Env) (node : Element)
    (items : List Element) (acc : List String) (st : PState) :
    MRes (Option String) :=
  match fuel with
  | 0 => (st, .error .fuel)
  | n + 1 =>
    if node.children.isEmpty then
      let pieces := acc ++ (items.filter pyTruthyE).map tostring
      (st, .ok (match pieces with | [] => none | _ => some (strJoin pieces)))
    else
      match parseGetNodeItems n env items node.children st with
      | (st1, .error e) => (st1, .error e)
      | (st1, .ok out) =>
        let pieces := acc ++ out
        (st1, .ok (match pieces with | [] => none | _ => some (strJoin pieces)))

/-- Outer fan-out loop: one pass of the child directives per record. -/
def parseGetNodeItems (fuel : Nat) (env : Env) (items : List Element)
    (children : List Element) (st : PState) : MRes (List String) :=
  match fuel with
  | 0 => (st, .error .fuel)
  | n + 1 =>
    match items with
    | [] => (st, .ok [])
    | it :: rest =>
      match parseGetNodeInner n env it children st with
      | (st1, .error e) => (st1, .error e)
      | (st1, .ok ps) =>
        match parseGetNodeItems n env rest children st1 with
        | (st2, .error e) => (st2, .error e)
        | (st2, .ok ps2) => (st2, .ok (ps ++ ps2))

/-- Inner fan-out loop (lines 254-271): for a fixed record, dispatch
each child directive; every branch is guarded by the record's
truthiness (`if item:`), so childless records contribute nothing. -/
def parseGetNodeInner (fuel : Nat) (env : Env) (it : Element)
    (children : List Element) (st : PState) : MRes (List String) :=
  match fuel with
  | 0 => (st, .error .fuel)
  | n + 1 =>
    match children with
    | [] => (st, .ok [])
    | c :: rest =>
      if c.tag = getcontentTAG then
        if pyTruthyE it then
          match parseGetContent c (some it) with
          | .error e => (st, .error e)
          | .ok d =>
            match parseGetNodeInner n env it rest st with
            | (st2, .error e) => (st2, .error e)
            | (st2, .ok out) => (st2, .ok (truthyOptL d ++ out))
        else parseGetNodeInner n env it rest st
      else if c.tag = literalTAG then
        if pyTruthyE it then
          match parseGetNodeInner n env it rest st with
          | (st2, .error e) => (st2, .error e)
          | (st2, .ok out) => (st2, .ok (truthyL (parseLiteral c) ++ out))
        else parseGetNodeInner n env it rest st
      else
        if pyTruthyE it then
          match parseXML n env c (some it) { st with level := st.level + 1 } with
          | (st1, .error e) => (st1, .error e)
          | (st1, .ok d) =>
            match parseGetNodeInner n env it rest { st1 with level := st1.level - 1 } with
            | (st2, .error e) => (st2, .error e)
            | (st2, .ok out) => (st2, .ok (truthyL d ++ out))
        else parseGetNodeInner n env it rest st

/-- ModelParser.parseXML, the pass-through serializer: a newline at
level above one, indentation, the open tag with raw attributes; a
childless node self-closes; otherwise the dispatched child outputs
followed by a newline, indentation at the CURRENT level and the close
tag.  The node text and tail are never read (lines 104 and 157 are
commented out in the source). -/
def parseXML (fuel : Nat) (env : Env) (node : Element) (item : Option Element)
    (st : PState) : MRes String :=
  match fuel with
  | 0 => (st, .error .fuel)
  | n + 1 =>
    let pre := (if 1 < st.level then "\n" else "") ++ indentOf st.level
    if node.children.isEmpty then
      (st, .ok (pre ++ "<" ++ node.tag ++ attrStr node.attrib ++ " />"))
    else
      match parseXMLChildren n env node.children item st with
      | (st1, .error e) => (st1, .error e)
      | (st1, .ok pieces) =>
        (st1, .ok (pre ++ "<" ++ node.tag ++ attrStr node.attrib ++ ">" ++
          strJoin pieces ++ "\n" ++ indentOf st1.level ++ "</" ++ node.tag ++ ">"))

/-- The child-dispatch loop of parseXML (lines 105-157): sources
register globally, query/literal/action outputs append when truthy,
getnode/getcontent/nested-model outputs are preceded by a newline when
truthy, nested models run child interpreters inside try/except (with a
reset after success), and any other node recurses into parseXML with
the same item and no level adjustment. -/
def parseXMLChildren (fuel : Nat) (env : Env) (cs : List Element)
    (item : Option Element) (st : PState) : MRes (List String) :=
  match fuel with
  | 0 => (st, .error .fuel)
  | n + 1 =>
    match cs with
    | [] => (st, .ok [])
    | c :: rest =>
      if c.tag = sourceTAG then
        match parseSource env c false st with
        | (st1, .error e) => (st1, .error e)
        | (st1, .ok _) => parseXMLChildren n env rest item st1
      else if c.tag = queryTAG then
        match parseQuery n env c st with
        | (st1, .error e) => (st1, .error e)
        | (st1, .ok d) =>
          match parseXMLChildren n env rest item st1 with
          | (st2, .error e) => (st2, .error e)
          | (st2, .ok out) => (st2, .ok (truthyOptL d ++ out))
      else if c.tag = literalTAG then
        match parseXMLChildren n env rest item st with
        | (st2, .error e) => (st2, .error e)
        | (st2, .ok out) => (st2, .ok (truthyL (parseLiteral c) ++ out))
      else if c.tag = actionTAG then
        match parseAction n env c st with
        | (st1, .error e) => (st1, .error e)
        | (st1, .ok d) =>
          match parseXMLChildren n env rest item st1 with
          | (st2, .error e) => (st2, .error e)
          | (st2, .ok out) => (st2, .ok (truthyOptL d ++ out))
      else if c.tag = getnodeTAG then
        match parseGetNode n env c st with
        | (st1, .error e) => (st1, .error e)
        | (st1, .ok d) =>
          match parseXMLChildren n env rest item st1 with
          | (st2, .error e) => (st2, .error e)
          | (st2, .ok out) => (st2, .ok (nlTruthyOptL d ++ out))
      else if c.tag = getcontentTAG then
        match parseGetContent c item with
        | .error e => (st, .error e)
        | .ok d =>
          match parseXMLChildren n env rest item st with
          | (st2, .error e) => (st2, .error e)
          | (st2, .ok out) => (st2, .ok (nlTruthyOptL d ++ out))
      else if c.tag = modelTAG then
        if (attrGet c "path").getD "" ≠ "" then
          match env.fs ((attrGet c "path").getD "") with
          | .error _ => parseXMLChildren n env rest item st
          | .ok cmodel =>
            match runChildReset n env cmodel st with
            | (st1, .error _) => parseXMLChildren n env rest item st1
            | (st1, .ok d) =>
              match parseXMLChildren n env rest item st1 with
              | (st2, .error e) => (st2, .error e)
              | (st2, .ok out) => (st2, .ok (nlTruthyOptL d ++ out))
        else if c.children.isEmpty then
          parseXMLChildren n env rest item st
        else
          match runChildReset n env c st with
          | (st1, .error _) => parseXMLChildren n env rest item st1
          | (st1, .ok d) =>
            match parseXMLChildren n env rest item st1 with
            | (st2, .error e) => (st2, .error e)
            | (st2, .ok out) => (st2, .ok (nlTruthyOptL d ++ out))
      else
        match parseXML n env c item st with
        | (st1, .error e) => (st1, .error e)
        | (st1, .ok d) =>
          match parseXMLChildren n env rest item st1 with
          | (st2, .error e) => (st2, .error e)
          | (st2, .ok out) => (st2, .ok (truthyL d ++ out))
end

/-- An environment whose collaborators are inert: no filesystem, no URL
fetching, extension code that leaves its tree alone and emits nothing. -/
def envTriv : Env :=
  { fs := fun _ => .error (.extErr "io"),
    getDocObj := fun _ _ _ _ => .error (.extErr "io"),
    runSrc := fun _ _ t => .ok t,
    runAct := fun _ t => .ok (t, "") }

/-- A freshly constructed parser state (`ModelParser()` over an empty
heap). -/
def st0 : PState := initParser [] 0 0

/-! ### Comparator facts used by the Sort claims -/

theorem clLe_total : ∀ a b, clLe a b = true ∨ clLe b a = true
  | [], _ => .inl rfl
  | _ :: _, [] => .inr rfl
  | a :: as, b :: bs => by
    simp only [clLe]
    rcases Nat.lt_trichotomy a.toNat b.toNat with h | h | h
    · left
      simp [h]
    · have h2 : ¬ a.toNat < b.toNat := by omega
      have h3 : ¬ b.toNat < a.toNat := by omega
      rcases clLe_total as bs with hh | hh
      · left
        simp [h2, h3, hh]
      · right
        simp [h2, h3, hh]
    · right
      simp [h]

theorem clLe_trans : ∀ a b c, clLe a b = true → clLe b c = true → clLe a c = true
  | [], _, _ => fun _ _ => rfl
  | _ :: _, [], _ => fun h1 _ => by simp [clLe] at h1
  | _ :: _, _ :: _, [] => fun _ h2 => by simp [clLe] at h2
  | a :: as, b :: bs, c :: cs => fun h1 h2 => by
    simp only [clLe] at h1 h2 ⊢
    by_cases hab : a.toNat < b.toNat <;> by_cases hbc : b.toNat < c.toNat
    · simp [show a.toNat < c.toNat by omega]
    · simp only [if_neg hbc] at h2
      by_cases hcb : c.toNat < b.toNat
      · simp [hcb] at h2
      · simp [show a.toNat < c.toNat by omega]
    · simp only [if_neg hab] at h1
      by_cases hba : b.toNat < a.toNat
      · simp [hba] at h1
      · simp [show a.toNat < c.toNat by omega]
    · simp only [if_neg hab] at h1
      simp only [if_neg hbc] at h2
      by_cases hba : b.toNat < a.toNat
      · simp [hba] at h1
      · by_cases hcb : c.toNat < b.toNat
        · simp [hcb] at h2
        · simp only [if_neg hba] at h1
          simp only [if_neg hcb] at h2
          have hac : ¬ a.toNat < c.toNat := by omega
          have hca : ¬ c.toNat < a.toNat := by omega
          simp [hac, hca, clLe_trans as bs cs h1 h2]

/-! ### Claim C7 — Sort.sort orders records by the case-insensitive key
text -/

/-- C7: for every record list R and key tag K such that every record has
exactly one descendant matching K with text, sorting with reverse=False
returns a permutation of R whose lowercased key texts (the text of the
unique descendant matching `.//K`, as read by `sortKeyOf`) are pairwise
non-decreasing; with reverse=True pairwise non-increasing; and with at
most one record both calls return the list unchanged. -/
theorem c7_sort_orders_by_key (R : List Element) (K : String)
    (H : ∀ x ∈ R, ∃ d, findallStr x (".//" ++ K) = [d] ∧ d.text ≠ "") :
    (R.length ≤ 1 → Sort.sort R K false = R ∧ Sort.sort R K true = R)
    ∧ (Sort.sort R K false).Perm R
    ∧ (Sort.sort R K false).Pairwise
        (fun x y => pyStrLe (sortKeyOf K x) (sortKeyOf K y) = true)
    ∧ (Sort.sort R K true).Perm R
    ∧ (Sort.sort R K true).Pairwise
        (fun x y => pyStrLe (sortKeyOf K y) (sortKeyOf K x) = true) := by
  have instTransAsc :
      IsTrans Element (fun x y => pyStrLe (sortKeyOf K x) (sortKeyOf K y) = true) :=
    ⟨fun a b c hab hbc => clLe_trans _ _ _ hab hbc⟩
  have instTotalAsc :
      IsTotal Element (fun x y => pyStrLe (sortKeyOf K x) (sortKeyOf K y) = true) :=
    ⟨fun a b => clLe_total (sortKeyOf K a).data (sortKeyOf K b).data⟩
  have instTransDesc :
      IsTrans Element (fun x y => pyStrLe (sortKeyOf K y) (sortKeyOf K x) = true) :=
    ⟨fun a b c hab hbc => clLe_trans _ _ _ hbc hab⟩
  have instTotalDesc :
      IsTotal Element (fun x y => pyStrLe (sortKeyOf K y) (sortKeyOf K x) = true) :=
    ⟨fun a b => clLe_total (sortKeyOf K b).data (sortKeyOf K a).data⟩
  refine ⟨?_, ?_, ?_, ?_, ?_⟩
  · intro h
    have hn : ¬ 1 < R.length := by omega
    constructor <;> simp [Sort.sort, hn]
  · unfold Sort.sort
    split
    · exact List.perm_insertionSort _ R
    · exact List.Perm.refl R
  · unfold Sort.sort
    split
    · exact List.sorted_insertionSort _ R
    · rename_i hn
      match R, hn with
      | [], _ => exact List.Pairwise.nil
      | [x], _ => exact List.pairwise_singleton _ x
      | x :: y :: t, hn => exact absurd (by simp) hn
  · unfold Sort.sort
    split
    · exact List.perm_insertionSort _ R
    · exact List.Perm.refl R
  · unfold Sort.sort
    split
    · exact List.sorted_insertionSort _ R
    · rename_i hn
      match R, hn with
      | [], _ => exact List.Pairwise.nil
      | [x], _ => exact List.pairwise_singleton _ x
      | x :: y :: t, hn => exact absurd (by simp) hn

/-- Two concrete blog-post records with title keys. -/
def c7rec1 : Element :=
  .mk "post" [] "" "" [.mk "title" [] "Beta" "" [], .mk "content" [] "p1" "" []]

def c7rec2 : Element :=
  .mk "post" [] "" "" [.mk "title" [] "alpha" "" [], .mk "content" [] "p2" "" []]

/-- C7 witness: the hypothesis holds for two concrete records (each has
exactly one `title` descendant with text), and the theorem applies. -/
theorem c7_sort_orders_by_key_witness :
    (∀ x ∈ [c7rec1, c7rec2], ∃ d, findallStr x (".//" ++ "title") = [d] ∧ d.text ≠ "")
    ∧ (([c7rec1, c7rec2].length ≤ 1 →
          Sort.sort [c7rec1, c7rec2] "title" false = [c7rec1, c7rec2]
          ∧ Sort.sort [c7rec1, c7rec2] "title" true = [c7rec1, c7rec2])
      ∧ (Sort.sort [c7rec1, c7rec2] "title" false).Perm [c7rec1, c7rec2]
      ∧ (Sort.sort [c7rec1, c7rec2] "title" false).Pairwise
          (fun x y => pyStrLe (sortKeyOf "title" x) (sortKeyOf "title" y) = true)
      ∧ (Sort.sort [c7rec1, c7rec2] "title" true).Perm [c7rec1, c7rec2]
      ∧ (Sort.sort [c7rec1, c7rec2] "title" true).Pairwise
          (fun x y => pyStrLe (sortKeyOf "title" y) (sortKeyOf "title" x) = true)) := by
  have H : ∀ x ∈ [c7rec1, c7rec2], ∃ d, findallStr x (".//" ++ "title") = [d] ∧ d.text ≠ "" := by
    intro x hx
    rcases List.mem_cons.mp hx with rfl | hx
    · exact ⟨.mk "title" [] "Beta" "" [], rfl, by decide⟩
    rcases List.mem_cons.mp hx with rfl | hx
    · exact ⟨.mk "title" [] "alpha" "" [], rfl, by decide⟩
    · simp at hx
  exact ⟨H, c7_sort_orders_by_key [c7rec1, c7rec2] "title" H⟩

/-! ### Claims C2 and C3 — the extension-code cache -/

/-- An exec oracle that emits nothing (the compile/cache protocol does
not depend on it). -/
def execO0 : String → String := fun _ => ""

def c2s1 : String := "x = 1\r\ny = 2\n"

def c2s2 : String := "x = 1\ny = 2\n"

def c2e1 : Executor := Executor.init.setCode c2s1

def c2e3 : Executor := (c2e1.runAction execO0).1.setCode c2s2

/-- C2, refuted on the code at a concrete input: the two scripts are
identical after line-ending normalization, yet setCode computes
different cache keys — the md5 in setCode hashes the ORIGINAL `code`
argument rather than the normalized `self.code` (and getkey returns a
fresh md5 object each call, which as a dictionary key is compared by
object identity), so the digests differ (third conjunct) and running
the second script compiles again instead of hitting the cache entry of
the first (last conjunct). -/
theorem c2_crlf_scripts_get_distinct_keys :
    normNewlines c2s1 = normNewlines c2s2
    ∧ c2e1.key ≠ c2e3.key
    ∧ Option.map MD5Key.digest c2e1.key ≠ Option.map MD5Key.digest c2e3.key
    ∧ (c2e3.runAction execO0).2.2 = true := by
  exact ⟨rfl, by decide, by decide, rfl⟩

def c3s : String := "x = 1\n"

def c3e1 : Executor := Executor.init.setCode c3s

def c3e3 : Executor := (c3e1.runAction execO0).1.setCode c3s

/-- C3, refuted on the code at a concrete input: running the
byte-identical script twice compiles BOTH times.  Cache.getkey returns
a fresh md5 object per call; although the two keys carry the same
digest (third conjunct), they are distinct dictionary keys (fourth
conjunct), so the second lookup misses and runAction recompiles (first
two conjuncts). -/
theorem c3_identical_script_compiles_twice :
    (c3e1.runAction execO0).2.2 = true
    ∧ (c3e3.runAction execO0).2.2 = true
    ∧ Option.map MD5Key.digest c3e1.key = Option.map MD5Key.digest c3e3.key
    ∧ c3e1.key ≠ c3e3.key := by
  exact ⟨rfl, rfl, by decide, by decide⟩

/-! ### Claim C1 — nested models and the source lists -/

def c1S1 : Element := .mk "s1" [] "" "" [.mk "d1" [] "" "" []]

def c1S2 : Element := .mk "s2" [] "" "" [.mk "d2" [] "" "" []]

/-- A nested model file that declares one url source. -/
def c1childDoc : Element :=
  .mk modelTAG [] "" ""
    [.mk sourceTAG [("type", "url"), ("name", "s2"), ("path", "u2")] "" "" []]

/-- A parent model: one url source, then a nested model loaded from the
path "m2". -/
def c1doc : Element :=
  .mk modelTAG [] "" ""
    [.mk sourceTAG [("type", "url"), ("name", "s1"), ("path", "u1")] "" "" [],
     .mk modelTAG [("path", "m2")] "" "" []]

def c1env : Env :=
  { fs := fun p => if p = "m2" then .ok c1childDoc else .error (.extErr "io"),
    getDocObj := fun p _ _ _ =>
      if p = "u1" then .ok c1S1 else if p = "u2" then .ok c1S2 else .error (.extErr "io"),
    runSrc := fun _ _ t => .ok t,
    runAct := fun _ t => .ok (t, "") }

/-- C1, refuted on the code at a concrete input.  The parent registers
c1S1 in its global list (reference 0) and then evaluates the nested
model.  The child constructor receives the parent references, but
__init__ ends in reset(), which rebinds both child attributes to
freshly allocated lists (references 2 and 3).  The final heap shows the
child registered c1S2 into the fresh list 2, NOT into the parent global
list 0, which still holds exactly [c1S1]; the parent still references
lists 0 and 1 afterwards, so a source declared in the child is
invisible to the parent (and the child never saw the parent source
either).  Nothing is shared. -/
theorem c1_child_interpreter_shares_no_source_lists :
    (parseModel 10 c1env c1doc st0).1.store = [[c1S1], [], [c1S2], []]
    ∧ (parseModel 10 c1env c1doc st0).1.gref = 0
    ∧ (parseModel 10 c1env c1doc st0).1.lref = 1
    ∧ readRef (parseModel 10 c1env c1doc st0).1 (parseModel 10 c1env c1doc st0).1.gref
        = [c1S1]
    ∧ st0.gref = 0 ∧ st0.lref = 1 ∧ readRef st0 0 = [] := by
  exact ⟨rfl, rfl, rfl, rfl, rfl, rfl, rfl⟩

/-! ### Claim C4 — a source child inside a query -/

/-- A model whose query declares a local source and then a literal
sibling. -/
def c4doc : Element :=
  .mk modelTAG [] "" ""
    [.mk queryTAG [("path", ".//blog")] "" ""
      [.mk sourceTAG [("type", "url"), ("name", "s"), ("path", "u")] "" "" [],
       .mk literalTAG [] "hi" "" []]]

/-- C4, refuted on the code at a concrete input: the first child of the
query is a source, and evaluating it raises NameError (the unbound name
`localsources` at modelparser.py line 355), which aborts the whole
parseModel run — the literal sibling "hi" is never emitted and no
source is registered anywhere (the heap holds only the two initial
lists and the fresh local list allocated by parseQuery, all empty). -/
theorem c4_source_in_query_aborts_evaluation :
    (parseModel 10 envTriv c4doc st0).2 = .error (.nameErr "localsources")
    ∧ (parseModel 10 envTriv c4doc st0).1.store = [[], [], []] := by
  exact ⟨rfl, rfl⟩

/-! ### Claim C5 — parseModel fails only on an invalid root -/

/-- C5: a document whose root tag is not the qualified model tag makes
parseModel return None with the state untouched; a document whose root
tag IS the model tag never yields the no-result return (its result is
either actual output or a propagated exception, never `.ok none`). -/
theorem c5_parseModel_fails_only_on_invalid_root (fuel : Nat) (env : Env)
    (doc : Element) (st : PState) :
    (doc.tag ≠ modelTAG → parseModel fuel env doc st = (st, .ok none))
    ∧ (doc.tag = modelTAG → (parseModel fuel env doc st).2 ≠ .ok none) := by
  constructor
  · intro h
    cases fuel <;> simp [parseModel, h]
  · intro h
    cases fuel with
    | zero => simp [parseModel, h]
    | succ n =>
      rw [parseModel]
      simp only [h, ne_eq, not_true_eq_false, if_false]
      split <;> simp

/-- C5 witness: a concrete invalid-root document returns None leaving
the state alone, and a concrete model-rooted document does not. -/
theorem c5_parseModel_fails_only_on_invalid_root_witness :
    ((Element.mk "wrong" [] "" "" []).tag ≠ modelTAG
      ∧ parseModel 3 envTriv (Element.mk "wrong" [] "" "" []) st0 = (st0, .ok none))
    ∧ ((Element.mk modelTAG [] "" "" []).tag = modelTAG
      ∧ (parseModel 3 envTriv (Element.mk modelTAG [] "" "" []) st0).2 ≠ .ok none) := by
  refine ⟨⟨by decide, ?_⟩, ⟨rfl, ?_⟩⟩
  · exact (c5_parseModel_fails_only_on_invalid_root 3 envTriv
      (Element.mk "wrong" [] "" "" []) st0).1 (by decide)
  · exact (c5_parseModel_fails_only_on_invalid_root 3 envTriv
      (Element.mk modelTAG [] "" "" []) st0).2 rfl

/-! ### Claim C6 — parseAction always clears the transform state -/

/-- C6: whenever parseAction returns (rather than propagating an
exception), the action type and sort key of the resulting interpreter
state are both cleared, whether or not the action node had children, so
no transform state survives into sibling getnode evaluation. -/
theorem c6_parseAction_clears_transform_state (fuel : Nat) (env : Env)
    (node : Element) (st st' : PState) (r : Option String)
    (h : parseAction fuel env node st = (st', .ok r)) :
    st'.atype = "" ∧ st'.skey = "" := by
  cases fuel with
  | zero => simp [parseAction] at h
  | succ n =>
    rw [parseAction] at h
    split at h
    · exact absurd h (by simp)
    · rename_i st2 pieces heq
      injection h with h1 h2
      subst h1
      exact ⟨rfl, rfl⟩

/-- A concrete action node that sets a sort transform and has no
children. -/
def c6node : Element := .mk actionTAG [("type", "sort"), ("key", "title")] "" "" []

/-- The state in which the concrete action is evaluated (with stale
transform state, to make the clearing observable). -/
def c6st : PState := { st0 with atype := "reversesort", skey := "old" }

/-- C6 witness: evaluating the concrete action succeeds and the theorem
yields the cleared fields. -/
theorem c6_parseAction_clears_transform_state_witness :
    parseAction 2 envTriv c6node c6st = ((parseAction 2 envTriv c6node c6st).1, .ok none)
    ∧ (parseAction 2 envTriv c6node c6st).1.atype = ""
    ∧ (parseAction 2 envTriv c6node c6st).1.skey = "" := by
  have h : parseAction 2 envTriv c6node c6st
      = ((parseAction 2 envTriv c6node c6st).1, .ok none) := rfl
  have h2 := c6_parseAction_clears_transform_state 2 envTriv c6node c6st
    (parseAction 2 envTriv c6node c6st).1 none h
  exact ⟨h, h2.1, h2.2⟩

/-! ### Claim C8 — parseGetContent returns exactly the matched text -/

/-- C8: with no (or empty) path attribute the directive produces no
output; with a path attribute and a current record, the result is
exactly the text of the first descendant matched by the path — not a
serialization of its subtree — and no match means no output. -/
theorem c8_getcontent_returns_matched_text (node item : Element) (p : String) :
    ((attrGet node "path").getD "" = "" → parseGetContent node (some item) = .ok none)
    ∧ (attrGet node "path" = some p → p ≠ "" →
        (∀ d ds, findallStr item p = d :: ds →
          parseGetContent node (some item) = .ok (some d.text))
        ∧ (findallStr item p = [] → parseGetContent node (some item) = .ok none)) := by
  constructor
  · intro h
    simp [parseGetContent, h]
  · intro hp hne
    constructor
    · intro d ds hfind
      simp [parseGetContent, hp, hne, findtextStr, hfind]
    · intro hfind
      simp [parseGetContent, hp, hne, findtextStr, hfind]

/-- The concrete record of the claim: a post carrying
`<title>Title1</title>`. -/
def c8item : Element :=
  .mk "post" [] "" "" [.mk "title" [] "Title1" "" [], .mk "date" [] "01012001" "" []]

def c8node : Element := .mk getcontentTAG [("path", "./title")] "" "" []

def c8nodeNoPath : Element := .mk getcontentTAG [] "" "" []

/-- C8 witness: against the concrete record, path "./title" yields
exactly "Title1"; a pathless node and an unmatched path yield None. -/
theorem c8_getcontent_returns_matched_text_witness :
    parseGetContent c8node (some c8item) = .ok (some "Title1")
    ∧ parseGetContent c8nodeNoPath (some c8item) = .ok none
    ∧ parseGetContent c8node (some (Element.mk "post" [] "" "" [])) = .ok none := by
  refine ⟨?_, ?_, ?_⟩
  · exact ((c8_getcontent_returns_matched_text c8node c8item "./title").2 rfl (by decide)).1
      (.mk "title" [] "Title1" "" []) [] rfl
  · exact (c8_getcontent_returns_matched_text c8nodeNoPath c8item "x").1 rfl
  · exact ((c8_getcontent_returns_matched_text c8node
      (Element.mk "post" [] "" "" []) "./title").2 rfl (by decide)).2 rfl

/-! ### Claim C9 — the pass-through serializer drops the node text -/

/-- C9: for a pass-through (non-directive) node, parseXML output does
not depend on the node text or tail (first conjunct — the text written
directly inside an arbitrary tag is silently dropped); a childless node
serializes as the indented open tag with its attributes, self-closed
(second conjunct); a node with children serializes as the open tag with
attributes, the concatenated outputs of the dispatched children, and
the close tag (third conjunct). -/
theorem c9_passthrough_emits_children_never_text (n : Nat) (env : Env)
    (tg : String) (ab : List (String × String)) (t1 t2 tl1 tl2 : String)
    (cs : List Element) (item : Option Element) (st : PState)
    (htag : tg ≠ modelTAG ∧ tg ≠ sourceTAG ∧ tg ≠ queryTAG ∧ tg ≠ actionTAG
      ∧ tg ≠ getnodeTAG ∧ tg ≠ getcontentTAG ∧ tg ≠ literalTAG) :
    parseXML n env (.mk tg ab t1 tl1 cs) item st
      = parseXML n env (.mk tg ab t2 tl2 cs) item st
    ∧ (cs = [] → parseXML (n + 1) env (.mk tg ab t1 tl1 cs) item st
        = (st, .ok ((if 1 < st.level then "\n" else "") ++ indentOf st.level
            ++ "<" ++ tg ++ attrStr ab ++ " />")))
    ∧ (∀ st1 pieces, parseXMLChildren n env cs item st = (st1, .ok pieces) → cs ≠ [] →
        parseXML (n + 1) env (.mk tg ab t1 tl1 cs) item st
          = (st1, .ok ((if 1 < st.level then "\n" else "") ++ indentOf st.level
              ++ "<" ++ tg ++ attrStr ab ++ ">" ++ strJoin pieces
              ++ "\n" ++ indentOf st1.level ++ "</" ++ tg ++ ">"))) := by
  refine ⟨?_, ?_, ?_⟩
  · cases n <;> rfl
  · intro hcs
    subst hcs
    rfl
  · intro st1 pieces hpc hne
    rw [parseXML.eq_def]
    simp only [Element.children, Element.tag, Element.attrib]
    cases cs with
    | nil => exact absurd rfl hne
    | cons c rest =>
      simp only [List.isEmpty_cons, if_false]
      rw [hpc]
      simp

/-- C9 witness: concrete pass-through nodes — a childless div
self-closes (with its text "sometext" nowhere in the output), two divs
differing only in text and tail serialize identically, and a div with a
span child emits open tag, child output, close tag. -/
theorem c9_passthrough_emits_children_never_text_witness :
    parseXML 2 envTriv (.mk "div" [("a", "b")] "sometext" "sometail" []) none st0
      = (st0, .ok "<div a=\"b\" />")
    ∧ parseXML 7 envTriv (.mk "div" [] "T1" "L1" [.mk "span" [] "x" "" []]) none st0
      = parseXML 7 envTriv (.mk "div" [] "T2" "L2" [.mk "span" [] "x" "" []]) none st0
    ∧ parseXML 3 envTriv (.mk "div" [] "T" "L" [.mk "span" [] "x" "" []]) none st0
      = (st0, .ok "<div><span />\n</div>") := by
  refine ⟨?_, ?_, ?_⟩
  · exact (c9_passthrough_emits_children_never_text 1 envTriv "div" [("a", "b")]
      "sometext" "" "sometail" "" [] none st0
      (by refine ⟨?_, ?_, ?_, ?_, ?_, ?_, ?_⟩ <;> decide)).2.1 rfl
  · exact (c9_passthrough_emits_children_never_text 7 envTriv "div" []
      "T1" "T2" "L1" "L2" [.mk "span" [] "x" "" []] none st0
      (by refine ⟨?_, ?_, ?_, ?_, ?_, ?_, ?_⟩ <;> decide)).1
  · exact (c9_passthrough_emits_children_never_text 2 envTriv "div" []
      "T" "" "L" "" [.mk "span" [] "x" "" []] none st0
      (by refine ⟨?_, ?_, ?_, ?_, ?_, ?_, ?_⟩ <;> decide)).2.2 st0 ["<span />"] rfl
      (by simp)

/-! ### Claim C10 — the no-output sentinel -/

theorem strAppend_ne_of_left (a b : String) (h : a ≠ "") : a ++ b ≠ "" := by
  intro hc
  have hl := congrArg String.length hc
  simp [String.length_append] at hl
  apply h
  have h0 : a.length = 0 := by omega
  cases a with
  | mk d =>
    cases d with
    | nil => rfl
    | cons c cstail => simp [String.length] at h0

theorem strJoin_ne_empty (l : List String) (h1 : l ≠ []) (h2 : ∀ s ∈ l, s ≠ "") :
    strJoin l ≠ "" := by
  cases l with
  | nil => exact absurd rfl h1
  | cons s rest =>
    exact strAppend_ne_of_left s (strJoin rest) (h2 s (List.mem_cons_self s rest))

theorem mem_truthyL {s d : String} (h : s ∈ truthyL d) : s ≠ "" := by
  unfold truthyL at h
  split at h
  · simp at h
  · rename_i hne
    rcases List.mem_singleton.mp h with rfl
    exact hne

theorem mem_truthyOptL {s : String} {o : Option String} (h : s ∈ truthyOptL o) :
    s ≠ "" := by
  cases o with
  | none => simp [truthyOptL] at h
  | some d => exact mem_truthyL h

/-- Every string the parseModel child loop accumulates is nonempty:
each append site is guarded by Python truthiness (`if data:`). -/
theorem parseModelChildren_output_ne (fuel : Nat) :
    ∀ (env : Env) (cs : List Element) (st st1 : PState) (out : List String),
      parseModelChildren fuel env cs st = (st1, .ok out) → ∀ s ∈ out, s ≠ "" := by
  induction fuel with
  | zero =>
    intro env cs st st1 out h
    simp [parseModelChildren] at h
  | succ n ih =>
    intro env cs st st1 out h
    rw [parseModelChildren.eq_def] at h
    cases cs with
    | nil =>
      simp at h
      obtain ⟨-, h2⟩ := h
      subst h2
      intro s hs
      simp at hs
    | cons c rest =>
      simp only at h
      repeat' split at h
      all_goals
        solve
        | simp at h
        | exact ih env rest _ st1 out h
        | (rename_i a2 b2 heq2
           simp only [Prod.mk.injEq, Except.ok.injEq] at h
           obtain ⟨h1, h2⟩ := h
           subst h2
           intro s hs
           rcases List.mem_append.mp hs with hs1 | hs2
           · first
             | exact mem_truthyOptL hs1
             | exact mem_truthyL hs1
           · exact ih env rest _ _ _ heq2 s hs2)

/-- C10 as amended: (a) when the child loop of a model-rooted document
produced no output at all and the root has no tail text, parseModel
returns the fixed sentinel; (b) a non-failing parseModel run never
returns the empty string (every accumulated piece is truthiness-guarded
and the sentinel is nonempty).  The unamended claim fails only because
a truthy root tail is emitted even when no child contributed. -/
theorem c10_no_output_sentinel_and_nonempty_result :
    (∀ (n : Nat) (env : Env) (doc : Element) (st st1 : PState),
      doc.tag = modelTAG → doc.tail = "" →
      parseModelChildren n env doc.children st = (st1, .ok []) →
      parseModel (n + 1) env doc st = (st1, .ok (some noOutputMsg)))
    ∧ (∀ (fuel : Nat) (env : Env) (doc : Element) (st st1 : PState) (s : String),
      parseModel fuel env doc st = (st1, .ok (some s)) → s ≠ "") := by
  constructor
  · intro n env doc st st1 htag htail hpc
    rw [parseModel]
    simp [htag, hpc, htail]
  · intro fuel env doc st st1 s h
    by_cases htag : doc.tag = modelTAG
    · cases fuel with
      | zero =>
        rw [parseModel.eq_def] at h
        simp only [htag, ne_eq, not_true_eq_false, if_false] at h
        exact absurd h (by simp)
      | succ n =>
        rw [parseModel.eq_def] at h
        simp only [htag, ne_eq, not_true_eq_false, if_false] at h
        split at h
        · simp at h
        · rename_i stx outx heq
          simp only [Prod.mk.injEq, Except.ok.injEq, Option.some.injEq] at h
          obtain ⟨-, hdata⟩ := h
          subst hdata
          split
          · exact (by decide : noOutputMsg ≠ "")
          · rename_i l hl
            apply strJoin_ne_empty
            · exact hl
            · intro t ht
              rcases List.mem_append.mp ht with h1 | h2
              · exact parseModelChildren_output_ne n env doc.children st stx outx heq t h1
              · by_cases htl : doc.tail = ""
                · simp [htl] at h2
                · simp only [if_neg htl] at h2
                  rcases List.mem_singleton.mp h2 with rfl
                  exact htl
    · rw [parseModel.eq_def] at h
      simp [htag] at h

/-- A model-rooted document with no children but a truthy tail. -/
def c10tailDoc : Element := .mk modelTAG [] "" "\n" []

/-- C10 counterexample to the claim as stated: no child directive
contributes any output (there are no children), yet the result is the
root tail "\n", not the sentinel. -/
theorem c10_sentinel_claim_fails_on_tail :
    parseModel 2 envTriv c10tailDoc st0 = (st0, .ok (some "\n"))
    ∧ "\n" ≠ noOutputMsg := by
  exact ⟨rfl, by decide⟩

/-- An empty model document (no children, no tail). -/
def c10doc0 : Element := .mk modelTAG [] "" "" []

/-- C10 witness: the empty model document yields exactly the sentinel,
and that run (a non-failing run) indeed returned a nonempty string. -/
theorem c10_no_output_sentinel_and_nonempty_result_witness :
    parseModel 2 envTriv c10doc0 st0 = (st0, .ok (some noOutputMsg))
    ∧ noOutputMsg ≠ "" := by
  constructor
  · exact c10_no_output_sentinel_and_nonempty_result.1 1 envTriv c10doc0 st0 st0
      rfl rfl rfl
  · exact c10_no_output_sentinel_and_nonempty_result.2 2 envTriv c10doc0 st0 st0
      noOutputMsg
      (c10_no_output_sentinel_and_nonempty_result.1 1 envTriv c10doc0 st0 st0
        rfl rfl rfl)

end Xdra
